import Mathlib

/-!
Verification of the JSON-ingestion core of `cuopt_json_to_c_api.c`.

The embedding starts from the parsed document tree: file reading and the
textual JSON parse are the cJSON library boundary (the spec treats the
tokenizer as an external, already-correct collaborator).  A cJSON node is
modelled by `JSON`; the accessors mirror the cJSON functions the source
calls (`cJSON_GetObjectItem`, `cJSON_GetArraySize`, `cJSON_ArrayForEach`,
and the `valueint` / `valuedouble` / `valuestring` fields).

Machine doubles are modelled by exact values `EVal` (a rational, or one of
the two infinities `CUOPT_INFINITY` / `-CUOPT_INFINITY`); the inputs the
program manipulates are decimal literals and infinity sentinels, which this
captures exactly.  IEEE NaN has no counterpart in the exact embedding.

Heap buffers obtained from `malloc` are modelled as lists of cells
`Option EVal`, `none` meaning an uninitialized cell.  A write past the end
of a buffer is undefined behavior in the C program; the model drops such
writes.  A read of a NULL `valuestring` (the source calls `strcmp` on it)
is undefined behavior that crashes in practice; the model makes the parse
fail (`none`) there.
-/

/-- A cJSON document node. -/
inductive JSON where
  | null : JSON
  | bool (b : Bool) : JSON
  | num (q : ℚ) : JSON
  | str (s : String) : JSON
  | arr (items : List JSON) : JSON
  | obj (fields : List (String × JSON)) : JSON

/-- The child chain of a cJSON node: array items, or object field values;
primitives have no children.  `cJSON_GetArraySize` is the length of this
list and `cJSON_ArrayForEach` iterates over it. -/
def children : JSON → List JSON
  | .arr items => items
  | .obj fields => fields.map Prod.snd
  | _ => []

/-- `cJSON_ArrayForEach` on a possibly-NULL node (it iterates nothing on NULL). -/
def childrenOf : Option JSON → List JSON
  | none => []
  | some j => children j

/-- ASCII `tolower`, as cJSON's `case_insensitive_strcmp` applies it. -/
def lowerChar (c : Char) : Char :=
  if 'A' ≤ c ∧ c ≤ 'Z' then Char.ofNat (c.toNat + 32) else c

/-- cJSON's case-insensitive key comparison (`cJSON_GetObjectItem` lowers
each byte with `tolower`). -/
def keyEq (a b : String) : Bool := a.data.map lowerChar == b.data.map lowerChar

def findField (key : String) : List (String × JSON) → Option JSON
  | [] => none
  | (k, v) :: rest => if keyEq k key then some v else findField key rest

/-- `cJSON_GetObjectItem(object, name)`: first field whose name matches
case-insensitively; NULL on a non-object (array items are unnamed). -/
def getObjectItem (j : JSON) (key : String) : Option JSON :=
  match j with
  | .obj fields => findField key fields
  | _ => none

/-- Truncation of a rational toward zero, as the C cast `(int)double` does. -/
def truncQ (q : ℚ) : Int :=
  if 0 ≤ q.num then ((q.num.toNat / q.den : Nat) : Int)
  else -((((-q.num).toNat) / q.den : Nat) : Int)

/-- The `valueint` field of a cJSON node: the saturating truncation of the
number for numeric nodes, 0 (the calloc default) otherwise. -/
def valueint : JSON → Int
  | .num q =>
      if (2147483647 : ℚ) ≤ q then 2147483647
      else if q ≤ (-2147483648 : ℚ) then -2147483648
      else truncQ q
  | _ => 0

/-- The `valuedouble` field: the number for numeric nodes, 0 otherwise. -/
def valuedouble : JSON → ℚ
  | .num q => q
  | _ => 0

/-- The `valuestring` field: present only on string nodes (NULL otherwise). -/
def valuestring : JSON → Option String
  | .str s => some s
  | _ => none

/-- `cJSON_IsTrue`: only the boolean-true node. -/
def jsonIsTrue : JSON → Bool
  | .bool b => b
  | _ => false

/-- An extended value: a finite rational, `CUOPT_INFINITY`, or `-CUOPT_INFINITY`. -/
inductive EVal where
  | fin (q : ℚ) : EVal
  | pinf : EVal
  | ninf : EVal
deriving DecidableEq

/-- Order on extended values (`-inf` below everything, `+inf` above). -/
def EVal.ble : EVal → EVal → Bool
  | .ninf, _ => true
  | _, .pinf => true
  | .fin a, .fin b => decide (a ≤ b)
  | .pinf, _ => false
  | .fin _, .ninf => false

/-! ### A model of the C library function `strtod`

`strtod` is libc code, outside this repository.  Modelled from the spec:
§4.1 describes the fallback as a best-effort parse of a decimal
floating-point literal where "a malformed literal yields 0.0, never an
error".  The model parses an optional-whitespace, optional-sign,
digits [ '.' digits ] [ ('e'|'E') optional-sign digits ] prefix and returns
0 when no digits are found.  strtod's hexadecimal, infinity and NaN forms
are not modelled (the infinity spellings the program cares about are
intercepted before `strtod` is reached, and NaN has no counterpart in this
exact-arithmetic embedding). -/

def digitVal (c : Char) : Nat := c.toNat - 48

/-- Read a run of decimal digits, returning the accumulated value, the
number of digits read, and the rest of the input. -/
def readDigitsAux (acc : Nat) (n : Nat) : List Char → Nat × Nat × List Char
  | [] => (acc, n, [])
  | c :: cs =>
      if c.isDigit then readDigitsAux (acc * 10 + digitVal c) (n + 1) cs
      else (acc, n, c :: cs)

/-- Read an optional sign; `true` means negative. -/
def readSign : List Char → Bool × List Char
  | '-' :: cs => (true, cs)
  | '+' :: cs => (false, cs)
  | cs => (false, cs)

/-- Read the optional fraction part: a '.' followed by digits. -/
def readFrac (rest : List Char) : Nat × Nat × List Char :=
  match rest with
  | '.' :: cs => readDigitsAux 0 0 cs
  | _ => (0, 0, rest)

/-- Read the optional exponent part: 'e' or 'E', optional sign, digits
(an exponent with no digits contributes nothing, as strtod backs up). -/
def readExp (rest : List Char) : Int :=
  match rest with
  | c :: cs =>
      if c = 'e' ∨ c = 'E' then
        let esign := readSign cs
        let edigits := readDigitsAux 0 0 esign.2
        if edigits.2.1 = 0 then 0
        else if esign.1 then -(edigits.1 : Int) else (edigits.1 : Int)
      else 0
  | [] => 0

def strtodChars (cs0 : List Char) : ℚ :=
  let cs1 := cs0.dropWhile Char.isWhitespace
  let sign := readSign cs1
  let intPart := readDigitsAux 0 0 sign.2
  let fracPart := readFrac intPart.2.2
  if intPart.2.1 = 0 ∧ fracPart.2.1 = 0 then 0
  else
    let e : Int := readExp fracPart.2.2
    let numAbs : Nat := (intPart.1 * 10 ^ fracPart.2.1 + fracPart.1) * 10 ^ e.toNat
    let den : Nat := 10 ^ fracPart.2.1 * 10 ^ (-e).toNat
    mkRat (if sign.1 then -(numAbs : Int) else (numAbs : Int)) den

def strtod (s : String) : ℚ := strtodChars s.data

/-- `parse_numeric_value` (cuopt_json_to_c_api.c, lines 89-103): numeric
nodes pass through; strings match the infinity sentinels exactly
(`strcmp`), otherwise fall back to `strtod`; any other node yields 0.0. -/
def parse_numeric_value (item : JSON) : EVal :=
  match item with
  | .num q => .fin q
  | .str s =>
      if s = "inf" ∨ s = "infinity" then .pinf
      else if s = "-inf" ∨ s = "-infinity" ∨ s = "ninf" then .ninf
      else .fin (strtod s)
  | _ => .fin 0

/-! ### The problem descriptor and `parse_cuopt_json` -/

/-- Objective sense (`CUOPT_MINIMIZE` / `CUOPT_MAXIMIZE`). -/
inductive Sense where
  | minimize : Sense
  | maximize : Sense
deriving DecidableEq

/-- Variable type tag (`CUOPT_CONTINUOUS` / `CUOPT_INTEGER`). -/
inductive VType where
  | continuous : VType
  | integer : VType
deriving DecidableEq

/-- A malloc'd buffer of doubles: each cell is `none` until written. -/
abbrev CellArr := List (Option EVal)

/-- A fresh malloc'd buffer of `n` doubles, all uninitialized.  A negative
requested count (possible because the C sizes are `int`) gives the empty
buffer. -/
def newCells (n : Int) : CellArr := List.replicate n.toNat none

/-- Write the values `xs` into `buf` at consecutive indices starting at
`i`, as the `cJSON_ArrayForEach` copy loops do.  A write past the end of
the buffer is undefined behavior in C; the model drops it. -/
def writeSeq {α : Type} : List α → Nat → List (Option α) → List (Option α)
  | [], _, buf => buf
  | x :: xs, i, buf => writeSeq xs (i + 1) (buf.set i (some x))

/-- The `ProblemData` struct populated by `parse_cuopt_json`.  Pointer
fields that can stay NULL (the struct is zeroed by `memset` in `main`) are
`Option`s. -/
structure ProblemData where
  row_offsets : List Int
  column_indices : List Int
  matrix_values : CellArr
  num_constraints : Int
  num_variables : Int
  nnz : Int
  objective_coefficients : List ℚ
  objective_offset : ℚ
  objective_sense : Sense
  constraint_lower_bounds : Option CellArr
  constraint_upper_bounds : Option CellArr
  variable_lower_bounds : Option CellArr
  variable_upper_bounds : Option CellArr
  variable_types : List (Option VType)
deriving DecidableEq

/-- The relational-form loop (lines 335-356): lockstep walk of the
`bounds` and `types` children while `i < num_constraints`, writing the
(lower, upper) pair selected by the code `"L"` / `"G"` / `"E"`; an
unrecognized code writes nothing.  A `types` item that is not a string has
a NULL `valuestring` and the `strcmp` on it is undefined behavior; the
model fails there. -/
def relationalLoop : List JSON → List JSON → Nat → Int → CellArr → CellArr →
    Option (CellArr × CellArr)
  | b :: bs, t :: ts, i, nc, clb, cub =>
      if (i : Int) < nc then
        let bound_value := parse_numeric_value b
        match valuestring t with
        | none => none
        | some code =>
            if code = "L" then
              relationalLoop bs ts (i + 1) nc
                (clb.set i (some EVal.ninf)) (cub.set i (some bound_value))
            else if code = "G" then
              relationalLoop bs ts (i + 1) nc
                (clb.set i (some bound_value)) (cub.set i (some EVal.pinf))
            else if code = "E" then
              relationalLoop bs ts (i + 1) nc
                (clb.set i (some bound_value)) (cub.set i (some bound_value))
            else
              relationalLoop bs ts (i + 1) nc clb cub
      else some (clb, cub)
  | _, _, _, _, clb, cub => some (clb, cub)

/-- Constraint-bound resolution (lines 305-359).  Absent
`constraint_bounds` object: both pointers stay NULL.  Present: two buffers
of `num_constraints` doubles are allocated; the explicit form
(`lower_bounds` and `upper_bounds` both present) copies each element
through `parse_numeric_value`; otherwise the relational form
(`bounds` + `types`) runs `relationalLoop`; with neither form the buffers
stay uninitialized. -/
def parseConstraintBounds (doc : JSON) (num_constraints : Int) :
    Option (Option CellArr × Option CellArr) :=
  match getObjectItem doc "constraint_bounds" with
  | none => some (none, none)
  | some cb =>
      let base := newCells num_constraints
      match getObjectItem cb "lower_bounds", getObjectItem cb "upper_bounds" with
      | some lbs, some ubs =>
          some (some (writeSeq ((children lbs).map parse_numeric_value) 0 base),
                some (writeSeq ((children ubs).map parse_numeric_value) 0 base))
      | _, _ =>
          match getObjectItem cb "bounds", getObjectItem cb "types" with
          | some bounds, some types =>
              match relationalLoop (children bounds) (children types) 0
                  num_constraints base base with
              | none => none
              | some (a, b) => some (some a, some b)
          | _, _ => some (some base, some base)

/-- Variable-bound resolution (lines 370-392).  Absent `variable_bounds`
object: both pointers stay NULL.  Present: two buffers of `num_variables`
doubles are allocated and the `lower_bounds` / `upper_bounds` children (if
any) are copied through `parse_numeric_value`. -/
def parseVariableBounds (doc : JSON) (num_variables : Int) :
    Option CellArr × Option CellArr :=
  match getObjectItem doc "variable_bounds" with
  | none => (none, none)
  | some vb =>
      let base := newCells num_variables
      (some (writeSeq ((childrenOf (getObjectItem vb "lower_bounds")).map
          parse_numeric_value) 0 base),
       some (writeSeq ((childrenOf (getObjectItem vb "upper_bounds")).map
          parse_numeric_value) 0 base))

/-- One item of the `variable_types` loop: `"I"` maps to INTEGER, any
other string to CONTINUOUS; a non-string item has a NULL `valuestring`
and the `strcmp` on it is undefined behavior, modelled as failure. -/
def varTypeOf (j : JSON) : Option VType :=
  match valuestring j with
  | none => none
  | some s => some (if s = "I" then .integer else .continuous)

def writeVarTypes : List JSON → Nat → List (Option VType) →
    Option (List (Option VType))
  | [], _, buf => some buf
  | j :: rest, i, buf =>
      match varTypeOf j with
      | none => none
      | some t => writeVarTypes rest (i + 1) (buf.set i (some t))

/-- Variable-type resolution (lines 403-424): with a `variable_types`
array, map each item; without one, default every slot to CONTINUOUS. -/
def parseVariableTypes (doc : JSON) (num_variables : Int) :
    Option (List (Option VType)) :=
  match getObjectItem doc "variable_types" with
  | some vt => writeVarTypes (children vt) 0
      (List.replicate num_variables.toNat none)
  | none => some (List.replicate num_variables.toNat (some .continuous))

/-- The descriptor assembled from the document, given the resolved
constraint bounds and variable types: counts (lines 228-229, 276), CSR
copies (lines 238-257), objective (lines 278-294) and variable bounds
(lines 370-392). -/
def mkData (doc offsets indices values objective_data : JSON)
    (cbs : Option CellArr × Option CellArr) (vtypes : List (Option VType)) :
    ProblemData :=
  let nnz : Int := (children indices).length
  let obj_coeffs := getObjectItem objective_data "coefficients"
  let num_variables : Int := (childrenOf obj_coeffs).length
  let vbs := parseVariableBounds doc num_variables
  { row_offsets := (children offsets).map valueint
    column_indices := (children indices).map valueint
    matrix_values := writeSeq ((children values).map
        (fun v => EVal.fin (valuedouble v))) 0 (newCells nnz)
    num_constraints := (children offsets).length - 1
    num_variables := num_variables
    nnz := nnz
    objective_coefficients := (childrenOf obj_coeffs).map valuedouble
    objective_offset :=
      match getObjectItem objective_data "offset" with
      | some o => valuedouble o
      | none => 0
    objective_sense :=
      match getObjectItem doc "maximize" with
      | some m => if jsonIsTrue m then .maximize else .minimize
      | none => .minimize
    constraint_lower_bounds := cbs.1
    constraint_upper_bounds := cbs.2
    variable_lower_bounds := vbs.1
    variable_upper_bounds := vbs.2
    variable_types := vtypes }

/-- The body of `parse_cuopt_json` once the required objects are in hand:
resolve the two fallible groups, then build the descriptor
(lines 228-424). -/
def assemble (doc offsets indices values objective_data : JSON) :
    Option ProblemData :=
  match parseConstraintBounds doc ((children offsets).length - 1) with
  | none => none
  | some cbs =>
      match parseVariableTypes doc
          ((childrenOf (getObjectItem objective_data "coefficients")).length) with
      | none => none
      | some vtypes =>
          some (mkData doc offsets indices values objective_data cbs vtypes)

/-- `parse_cuopt_json` (lines 150-437), from the parsed document tree on:
the only error exits are a missing `csr_constraint_matrix` object, a
missing `offsets` / `indices` / `values` array inside it, and a missing
`objective_data` object (each returns -1 in C, `none` here); everything
else returns 0 with the populated descriptor. -/
def parse_cuopt_json (doc : JSON) : Option ProblemData :=
  match getObjectItem doc "csr_constraint_matrix" with
  | none => none
  | some csr =>
      match getObjectItem csr "offsets", getObjectItem csr "indices",
          getObjectItem csr "values" with
      | some offsets, some indices, some values =>
          match getObjectItem doc "objective_data" with
          | none => none
          | some objective_data =>
              assemble doc offsets indices values objective_data
      | _, _, _ => none

/-- The cell at index `k` of a possibly-NULL buffer. -/
def cellAt (oa : Option CellArr) (k : Nat) : Option (Option EVal) :=
  oa.bind (fun a => a[k]?)

/-! ### Concrete documents used to instantiate the theorems -/

/-- The spec's relational scenario: `bounds=[230,190], types=["G","L"]`,
with a 2-constraint CSR skeleton. -/
def docRelational : JSON := .obj [
  ("csr_constraint_matrix", .obj [
    ("offsets", .arr [.num 0, .num 0, .num 0]),
    ("indices", .arr []),
    ("values", .arr [])]),
  ("objective_data", .obj [("coefficients", .arr [])]),
  ("constraint_bounds", .obj [
    ("bounds", .arr [.num 230, .num 190]),
    ("types", .arr [.str "G", .str "L"])])]

/-- What `parse_cuopt_json` produces on `docRelational`. -/
def dRelational : ProblemData := {
  row_offsets := [0, 0, 0]
  column_indices := []
  matrix_values := []
  num_constraints := 2
  num_variables := 0
  nnz := 0
  objective_coefficients := []
  objective_offset := 0
  objective_sense := .minimize
  constraint_lower_bounds := some [some (.fin 230), some .ninf]
  constraint_upper_bounds := some [some .pinf, some (.fin 190)]
  variable_lower_bounds := none
  variable_upper_bounds := none
  variable_types := [] }

/-- Explicit constraint-bound form with `lower_bounds=[5]` above
`upper_bounds=[3]`: the parser copies the arrays verbatim. -/
def docExplicitBad : JSON := .obj [
  ("csr_constraint_matrix", .obj [
    ("offsets", .arr [.num 0, .num 0]),
    ("indices", .arr []),
    ("values", .arr [])]),
  ("objective_data", .obj [("coefficients", .arr [])]),
  ("constraint_bounds", .obj [
    ("lower_bounds", .arr [.num 5]),
    ("upper_bounds", .arr [.num 3])])]

/-- What `parse_cuopt_json` produces on `docExplicitBad`. -/
def dExplicitBad : ProblemData := {
  row_offsets := [0, 0]
  column_indices := []
  matrix_values := []
  num_constraints := 1
  num_variables := 0
  nnz := 0
  objective_coefficients := []
  objective_offset := 0
  objective_sense := .minimize
  constraint_lower_bounds := some [some (.fin 5)]
  constraint_upper_bounds := some [some (.fin 3)]
  variable_lower_bounds := none
  variable_upper_bounds := none
  variable_types := [] }

/-- One variable, no `variable_bounds`, no `variable_types`, no
`maximize`, no `offset`. -/
def docNoVarBounds : JSON := .obj [
  ("csr_constraint_matrix", .obj [
    ("offsets", .arr [.num 0]),
    ("indices", .arr []),
    ("values", .arr [])]),
  ("objective_data", .obj [("coefficients", .arr [.num 1])])]

/-- What `parse_cuopt_json` produces on `docNoVarBounds`. -/
def dNoVarBounds : ProblemData := {
  row_offsets := [0]
  column_indices := []
  matrix_values := []
  num_constraints := 0
  num_variables := 1
  nnz := 0
  objective_coefficients := [1]
  objective_offset := 0
  objective_sense := .minimize
  constraint_lower_bounds := none
  constraint_upper_bounds := none
  variable_lower_bounds := none
  variable_upper_bounds := none
  variable_types := [some .continuous] }

/-- An `objective_data` object with no `coefficients` array (and no
`constraint_bounds`). -/
def docEmptyObjective : JSON := .obj [
  ("csr_constraint_matrix", .obj [
    ("offsets", .arr [.num 0]),
    ("indices", .arr []),
    ("values", .arr [])]),
  ("objective_data", .obj [])]

/-- What `parse_cuopt_json` produces on `docEmptyObjective`. -/
def dEmptyObjective : ProblemData := {
  row_offsets := [0]
  column_indices := []
  matrix_values := []
  num_constraints := 0
  num_variables := 0
  nnz := 0
  objective_coefficients := []
  objective_offset := 0
  objective_sense := .minimize
  constraint_lower_bounds := none
  constraint_upper_bounds := none
  variable_lower_bounds := none
  variable_upper_bounds := none
  variable_types := [] }

/-- A document with no `objective_data` object at all. -/
def docMissingObjective : JSON := .obj [
  ("csr_constraint_matrix", .obj [
    ("offsets", .arr [.num 0]),
    ("indices", .arr []),
    ("values", .arr [])])]

/-- A CSR object missing its `values` array. -/
def docMissingValues : JSON := .obj [
  ("csr_constraint_matrix", .obj [
    ("offsets", .arr [.num 0]),
    ("indices", .arr [])]),
  ("objective_data", .obj [("coefficients", .arr [])])]

/-! ### Equations and properties of the relational-form loop -/

theorem relationalLoop_nil_left (ts : List JSON) (i : Nat) (nc : Int)
    (clb cub : CellArr) : relationalLoop [] ts i nc clb cub = some (clb, cub) := by
  cases ts <;> rfl

theorem relationalLoop_nil_right (bs : List JSON) (i : Nat) (nc : Int)
    (clb cub : CellArr) : relationalLoop bs [] i nc clb cub = some (clb, cub) := by
  cases bs <;> rfl

theorem relationalLoop_cons (b t : JSON) (bs ts : List JSON) (i : Nat) (nc : Int)
    (clb cub : CellArr) :
    relationalLoop (b :: bs) (t :: ts) i nc clb cub =
      if (i : Int) < nc then
        match valuestring t with
        | none => none
        | some code =>
            if code = "L" then
              relationalLoop bs ts (i + 1) nc
                (clb.set i (some EVal.ninf))
                (cub.set i (some (parse_numeric_value b)))
            else if code = "G" then
              relationalLoop bs ts (i + 1) nc
                (clb.set i (some (parse_numeric_value b)))
                (cub.set i (some EVal.pinf))
            else if code = "E" then
              relationalLoop bs ts (i + 1) nc
                (clb.set i (some (parse_numeric_value b)))
                (cub.set i (some (parse_numeric_value b)))
            else
              relationalLoop bs ts (i + 1) nc clb cub
      else some (clb, cub) := rfl

/-- Cells the loop never writes: below the starting index, at or past
`numConstraints`, or at or past start + (number of available pairs). -/
theorem relationalLoop_untouched : ∀ (bs ts : List JSON) (i : Nat) (nc : Int)
    (clb cub a b : CellArr),
    relationalLoop bs ts i nc clb cub = some (a, b) →
    ∀ j : Nat, (j < i ∨ nc ≤ (j : Int) ∨ i + min bs.length ts.length ≤ j) →
      a[j]? = clb[j]? ∧ b[j]? = cub[j]?
  | [], ts, i, nc, clb, cub, a, b, h, j, hj => by
      rw [relationalLoop_nil_left] at h; cases h; exact ⟨rfl, rfl⟩
  | _ :: _, [], i, nc, clb, cub, a, b, h, j, hj => by
      rw [relationalLoop_nil_right] at h; cases h; exact ⟨rfl, rfl⟩
  | bh :: bs, th :: ts, i, nc, clb, cub, a, b, h, j, hj => by
      rw [relationalLoop_cons] at h
      simp only [List.length_cons, Nat.succ_min_succ] at hj
      by_cases hg : (i : Int) < nc
      case neg => rw [if_neg hg] at h; cases h; exact ⟨rfl, rfl⟩
      rw [if_pos hg] at h
      have hne : i ≠ j := by omega
      have hj' : j < i + 1 ∨ nc ≤ (j : Int) ∨ (i + 1) + min bs.length ts.length ≤ j := by
        omega
      split at h
      · cases h
      · split at h
        · have := relationalLoop_untouched bs ts (i + 1) nc _ _ a b h j hj'
          rwa [List.getElem?_set_ne hne, List.getElem?_set_ne hne] at this
        · split at h
          · have := relationalLoop_untouched bs ts (i + 1) nc _ _ a b h j hj'
            rwa [List.getElem?_set_ne hne, List.getElem?_set_ne hne] at this
          · split at h
            · have := relationalLoop_untouched bs ts (i + 1) nc _ _ a b h j hj'
              rwa [List.getElem?_set_ne hne, List.getElem?_set_ne hne] at this
            · exact relationalLoop_untouched bs ts (i + 1) nc _ _ a b h j hj'

/-- What the loop writes at each in-range slot, by `"L"` / `"G"` / `"E"` code. -/
theorem relationalLoop_slot : ∀ (bs ts : List JSON) (i : Nat) (nc : Int)
    (clb cub a b : CellArr),
    relationalLoop bs ts i nc clb cub = some (a, b) →
    ∀ (k : Nat) (hk : k < bs.length) (hk2 : k < ts.length),
      ((i + k : Nat) : Int) < nc → i + k < clb.length → i + k < cub.length →
      ∀ code, valuestring (ts.get ⟨k, hk2⟩) = some code →
        ((code = "L" → a[i + k]? = some (some EVal.ninf) ∧
            b[i + k]? = some (some (parse_numeric_value (bs.get ⟨k, hk⟩)))) ∧
         (code = "G" →
            a[i + k]? = some (some (parse_numeric_value (bs.get ⟨k, hk⟩))) ∧
            b[i + k]? = some (some EVal.pinf)) ∧
         (code = "E" →
            a[i + k]? = some (some (parse_numeric_value (bs.get ⟨k, hk⟩))) ∧
            b[i + k]? = some (some (parse_numeric_value (bs.get ⟨k, hk⟩)))))
  | [], ts, i, nc, clb, cub, a, b, h, k, hk, hk2, hx, hl1, hl2, code, hcode => by
      simp at hk
  | _ :: _, [], i, nc, clb, cub, a, b, h, k, hk, hk2, hx, hl1, hl2, code, hcode => by
      simp at hk2
  | bh :: bs, th :: ts, i, nc, clb, cub, a, b, h, 0, hk, hk2, hx, hl1, hl2, code,
      hcode => by
      simp only [Nat.add_zero] at hx hl1 hl2 ⊢
      have hcode' : valuestring th = some code := hcode
      rw [relationalLoop_cons, if_pos hx] at h
      have hget : (bh :: bs).get ⟨0, hk⟩ = bh := rfl
      rw [hget]
      split at h
      case h_1 heq => rw [hcode'] at heq; cases heq
      case h_2 c heq =>
      rw [hcode'] at heq
      injection heq with hcc
      subst hcc
      refine ⟨fun hL => ?_, fun hG => ?_, fun hE => ?_⟩
      · rw [if_pos hL] at h
        have hu := relationalLoop_untouched bs ts (i + 1) nc _ _ a b h i (Or.inl (by omega))
        rw [List.getElem?_set_self hl1, List.getElem?_set_self hl2] at hu
        exact hu
      · have hne : code ≠ "L" := by rw [hG]; decide
        rw [if_neg hne, if_pos hG] at h
        have hu := relationalLoop_untouched bs ts (i + 1) nc _ _ a b h i (Or.inl (by omega))
        rw [List.getElem?_set_self hl1, List.getElem?_set_self hl2] at hu
        exact hu
      · have hne : code ≠ "L" := by rw [hE]; decide
        have hne2 : code ≠ "G" := by rw [hE]; decide
        rw [if_neg hne, if_neg hne2, if_pos hE] at h
        have hu := relationalLoop_untouched bs ts (i + 1) nc _ _ a b h i (Or.inl (by omega))
        rw [List.getElem?_set_self hl1, List.getElem?_set_self hl2] at hu
        exact hu
  | bh :: bs, th :: ts, i, nc, clb, cub, a, b, h, k + 1, hk, hk2, hx, hl1, hl2, code,
      hcode => by
      have hg : (i : Int) < nc := by push_cast at hx; omega
      rw [relationalLoop_cons, if_pos hg] at h
      have hk' : k < bs.length := by simpa using Nat.lt_of_succ_lt_succ hk
      have hk2' : k < ts.length := by simpa using Nat.lt_of_succ_lt_succ hk2
      have hcode' : valuestring (ts.get ⟨k, hk2'⟩) = some code := hcode
      have hidx : i + 1 + k = i + (k + 1) := by omega
      have hgetb : (bh :: bs).get ⟨k + 1, hk⟩ = bs.get ⟨k, hk'⟩ := rfl
      rw [hgetb]
      have hx' : ((i + 1 + k : Nat) : Int) < nc := by push_cast at hx ⊢; omega
      split at h
      · cases h
      · split at h
        · have := relationalLoop_slot bs ts (i + 1) nc _ _ a b h k hk' hk2' hx'
            (by simpa [hidx] using hl1) (by simpa [hidx] using hl2) code hcode'
          rwa [hidx] at this
        · split at h
          · have := relationalLoop_slot bs ts (i + 1) nc _ _ a b h k hk' hk2' hx'
              (by simpa [hidx] using hl1) (by simpa [hidx] using hl2) code hcode'
            rwa [hidx] at this
          · split at h
            · have := relationalLoop_slot bs ts (i + 1) nc _ _ a b h k hk' hk2' hx'
                (by simpa [hidx] using hl1) (by simpa [hidx] using hl2) code hcode'
              rwa [hidx] at this
            · have := relationalLoop_slot bs ts (i + 1) nc _ _ a b h k hk' hk2' hx'
                (by simpa [hidx] using hl1) (by simpa [hidx] using hl2) code hcode'
              rwa [hidx] at this

/-- The loop never looks past the first `numConstraints` elements of
either array. -/
theorem relationalLoop_take_nc : ∀ (bs ts : List JSON) (i : Nat) (nc : Int)
    (clb cub : CellArr),
    relationalLoop bs ts i nc clb cub =
      relationalLoop (bs.take (nc.toNat - i)) (ts.take (nc.toNat - i)) i nc clb cub
  | [], ts, i, nc, clb, cub => by
      rw [List.take_nil, relationalLoop_nil_left, relationalLoop_nil_left]
  | bh :: bs, [], i, nc, clb, cub => by
      rw [List.take_nil, relationalLoop_nil_right, relationalLoop_nil_right]
  | bh :: bs, th :: ts, i, nc, clb, cub => by
      by_cases hg : (i : Int) < nc
      · have hpos : nc.toNat - i = (nc.toNat - (i + 1)) + 1 := by omega
        rw [hpos, List.take_succ_cons, List.take_succ_cons,
          relationalLoop_cons, relationalLoop_cons, if_pos hg, if_pos hg]
        split
        · rfl
        · split
          · exact relationalLoop_take_nc bs ts (i + 1) nc _ _
          · split
            · exact relationalLoop_take_nc bs ts (i + 1) nc _ _
            · split
              · exact relationalLoop_take_nc bs ts (i + 1) nc _ _
              · exact relationalLoop_take_nc bs ts (i + 1) nc _ _
      · have h0 : nc.toNat - i = 0 := by omega
        rw [h0, List.take_zero, List.take_zero, relationalLoop_nil_left,
          relationalLoop_cons, if_neg hg]

/-- The loop never looks past the shorter of the two arrays. -/
theorem relationalLoop_take_min : ∀ (bs ts : List JSON) (i : Nat) (nc : Int)
    (clb cub : CellArr),
    relationalLoop bs ts i nc clb cub =
      relationalLoop (bs.take (min bs.length ts.length))
        (ts.take (min bs.length ts.length)) i nc clb cub
  | [], ts, i, nc, clb, cub => by
      simp [relationalLoop_nil_left]
  | bh :: bs, [], i, nc, clb, cub => by
      simp [relationalLoop_nil_right]
  | bh :: bs, th :: ts, i, nc, clb, cub => by
      simp only [List.length_cons, Nat.succ_min_succ, List.take_succ_cons]
      by_cases hg : (i : Int) < nc
      · rw [relationalLoop_cons, relationalLoop_cons, if_pos hg, if_pos hg]
        split
        · rfl
        · split
          · exact relationalLoop_take_min bs ts (i + 1) nc _ _
          · split
            · exact relationalLoop_take_min bs ts (i + 1) nc _ _
            · split
              · exact relationalLoop_take_min bs ts (i + 1) nc _ _
              · exact relationalLoop_take_min bs ts (i + 1) nc _ _
      · rw [relationalLoop_cons, relationalLoop_cons, if_neg hg, if_neg hg]

theorem EVal.ble_refl (v : EVal) : EVal.ble v v = true := by
  cases v <;> simp [EVal.ble]

theorem EVal.ninf_ble (v : EVal) : EVal.ble .ninf v = true := by
  cases v <;> rfl

theorem EVal.ble_pinf (v : EVal) : EVal.ble v .pinf = true := by
  cases v <;> rfl

/-- Every (lower, upper) pair the loop writes is ordered, so the ordering
invariant on fully-written pairs is preserved. -/
theorem relationalLoop_ordered : ∀ (bs ts : List JSON) (i : Nat) (nc : Int)
    (clb cub a b : CellArr),
    relationalLoop bs ts i nc clb cub = some (a, b) →
    clb.length = cub.length →
    (∀ (j : Nat) (l u : EVal), clb[j]? = some (some l) → cub[j]? = some (some u) →
      EVal.ble l u = true) →
    ∀ (j : Nat) (l u : EVal), a[j]? = some (some l) → b[j]? = some (some u) →
      EVal.ble l u = true
  | [], ts, i, nc, clb, cub, a, b, h, hlen, hinv => by
      rw [relationalLoop_nil_left] at h
      cases h; exact hinv
  | _ :: _, [], i, nc, clb, cub, a, b, h, hlen, hinv => by
      rw [relationalLoop_nil_right] at h
      cases h; exact hinv
  | bh :: bs, th :: ts, i, nc, clb, cub, a, b, h, hlen, hinv => by
      rw [relationalLoop_cons] at h
      by_cases hg : (i : Int) < nc
      case neg => rw [if_neg hg] at h; cases h; exact hinv
      rw [if_pos hg] at h
      have step : ∀ (x y : EVal), EVal.ble x y = true →
          ∀ (j : Nat) (l u : EVal),
            (clb.set i (some x))[j]? = some (some l) →
            (cub.set i (some y))[j]? = some (some u) → EVal.ble l u = true := by
        intro x y hxy j l u hj hu
        by_cases hij : i = j
        · subst hij
          by_cases hib : i < clb.length
          · rw [List.getElem?_set_self hib] at hj
            rw [List.getElem?_set_self (hlen ▸ hib)] at hu
            cases hj; cases hu; exact hxy
          · rw [List.set_eq_of_length_le (by omega)] at hj
            rw [List.set_eq_of_length_le (by omega : cub.length ≤ i)] at hu
            exact hinv i l u hj hu
        · rw [List.getElem?_set_ne hij] at hj
          rw [List.getElem?_set_ne hij] at hu
          exact hinv j l u hj hu
      split at h
      · cases h
      · split at h
        · exact relationalLoop_ordered bs ts (i + 1) nc _ _ a b h
            (by simp [hlen]) (step _ _ (EVal.ninf_ble _))
        · split at h
          · exact relationalLoop_ordered bs ts (i + 1) nc _ _ a b h
              (by simp [hlen]) (step _ _ (EVal.ble_pinf _))
          · split at h
            · exact relationalLoop_ordered bs ts (i + 1) nc _ _ a b h
                (by simp [hlen]) (step _ _ (EVal.ble_refl _))
            · exact relationalLoop_ordered bs ts (i + 1) nc _ _ a b h hlen hinv

/-! ### Inversion of the parse pipeline -/

theorem parse_eq_assemble {doc csr offsets indices values objective_data : JSON}
    (h1 : getObjectItem doc "csr_constraint_matrix" = some csr)
    (h2 : getObjectItem csr "offsets" = some offsets)
    (h3 : getObjectItem csr "indices" = some indices)
    (h4 : getObjectItem csr "values" = some values)
    (h5 : getObjectItem doc "objective_data" = some objective_data) :
    parse_cuopt_json doc = assemble doc offsets indices values objective_data := by
  simp only [parse_cuopt_json, h1, h2, h3, h4, h5]

theorem parse_some_elim {doc : JSON} {d : ProblemData}
    (hp : parse_cuopt_json doc = some d) :
    ∃ csr offsets indices values objective_data,
      getObjectItem doc "csr_constraint_matrix" = some csr ∧
      getObjectItem csr "offsets" = some offsets ∧
      getObjectItem csr "indices" = some indices ∧
      getObjectItem csr "values" = some values ∧
      getObjectItem doc "objective_data" = some objective_data ∧
      assemble doc offsets indices values objective_data = some d := by
  unfold parse_cuopt_json at hp
  split at hp
  · cases hp
  next csr h1 =>
    split at hp
    next offsets indices values h2 h3 h4 =>
      split at hp
      · cases hp
      next objective_data h5 =>
        exact ⟨csr, offsets, indices, values, objective_data, h1, h2, h3, h4, h5, hp⟩
    next => cases hp

theorem assemble_some_elim {doc offsets indices values objective_data : JSON}
    {d : ProblemData}
    (hp : assemble doc offsets indices values objective_data = some d) :
    ∃ cbs vtypes,
      parseConstraintBounds doc ((children offsets).length - 1) = some cbs ∧
      parseVariableTypes doc
        ((childrenOf (getObjectItem objective_data "coefficients")).length) =
          some vtypes ∧
      d = mkData doc offsets indices values objective_data cbs vtypes := by
  unfold assemble at hp
  split at hp
  · cases hp
  next cbs hcb =>
    split at hp
    · cases hp
    next vtypes hvt =>
      cases hp
      exact ⟨cbs, vtypes, hcb, hvt, rfl⟩

theorem parseConstraintBounds_absent {doc : JSON} {nc : Int}
    (h : getObjectItem doc "constraint_bounds" = none) :
    parseConstraintBounds doc nc = some (none, none) := by
  simp only [parseConstraintBounds, h]

/-- With the explicit form absent and `bounds` / `types` present, the
bound buffers come from the relational loop. -/
theorem parseConstraintBounds_relational {doc cb bounds types : JSON} {nc : Int}
    (hcb : getObjectItem doc "constraint_bounds" = some cb)
    (hnx : getObjectItem cb "lower_bounds" = none ∨
      getObjectItem cb "upper_bounds" = none)
    (hb : getObjectItem cb "bounds" = some bounds)
    (ht : getObjectItem cb "types" = some types) :
    parseConstraintBounds doc nc =
      match relationalLoop (children bounds) (children types) 0 nc
          (newCells nc) (newCells nc) with
      | none => none
      | some (a, b) => some (some a, some b) := by
  rcases hnx with h | h
  · simp only [parseConstraintBounds, hcb, h, hb, ht]
  · cases hl : getObjectItem cb "lower_bounds" <;>
      simp only [parseConstraintBounds, hcb, h, hl, hb, ht]

/-- With both explicit arrays present, the buffers are verbatim copies. -/
theorem parseConstraintBounds_explicit {doc cb lbs ubs : JSON} {nc : Int}
    (hcb : getObjectItem doc "constraint_bounds" = some cb)
    (hl : getObjectItem cb "lower_bounds" = some lbs)
    (hu : getObjectItem cb "upper_bounds" = some ubs) :
    parseConstraintBounds doc nc =
      some (some (writeSeq ((children lbs).map parse_numeric_value) 0 (newCells nc)),
            some (writeSeq ((children ubs).map parse_numeric_value) 0 (newCells nc))) := by
  simp only [parseConstraintBounds, hcb, hl, hu]

/-- The `variable_types` loop succeeds when every item is a string. -/
theorem writeVarTypes_total : ∀ (items : List JSON) (i : Nat)
    (buf : List (Option VType)),
    (∀ j ∈ items, (valuestring j).isSome = true) →
    ∃ out, writeVarTypes items i buf = some out
  | [], i, buf, _ => ⟨buf, rfl⟩
  | j :: rest, i, buf, h => by
      have hj := h j (by simp)
      cases hvs : valuestring j with
      | none => rw [hvs] at hj; cases hj
      | some s =>
          obtain ⟨out, hout⟩ := writeVarTypes_total rest (i + 1)
            (buf.set i (some (if s = "I" then .integer else .continuous)))
            (fun x hx => h x (by simp [hx]))
          exact ⟨out, by unfold writeVarTypes varTypeOf; rw [hvs]; exact hout⟩

/-! ### strtod on digit-free input -/

theorem readDigitsAux_none (acc n : Nat) : ∀ (cs : List Char),
    (∀ c ∈ cs, c.isDigit = false) → readDigitsAux acc n cs = (acc, n, cs)
  | [], _ => rfl
  | c :: cs, h => by
      have hc : c.isDigit = false := h c (by simp)
      simp [readDigitsAux, hc]

theorem readSign_mem (l : List Char) : ∀ c ∈ (readSign l).2, c ∈ l := by
  unfold readSign
  split
  · intro c hc; exact List.mem_cons_of_mem _ hc
  · intro c hc; exact List.mem_cons_of_mem _ hc
  · intro c hc; exact hc

theorem readFrac_no_digits (rest : List Char)
    (h : ∀ c ∈ rest, c.isDigit = false) : (readFrac rest).2.1 = 0 := by
  unfold readFrac
  split
  next cs =>
    have h3 : ∀ c ∈ cs, c.isDigit = false :=
      fun c hc => h c (List.mem_cons_of_mem _ hc)
    rw [readDigitsAux_none 0 0 cs h3]
  next => rfl

/-- A string with no decimal digit anywhere admits no conversion, so the
modelled `strtod` returns 0. -/
theorem strtodChars_no_digits (cs : List Char)
    (h : ∀ c ∈ cs, c.isDigit = false) : strtodChars cs = 0 := by
  have h1 : ∀ c ∈ cs.dropWhile Char.isWhitespace, c.isDigit = false :=
    fun c hc => h c ((List.dropWhile_sublist _).mem hc)
  have h2 : ∀ c ∈ (readSign (cs.dropWhile Char.isWhitespace)).2, c.isDigit = false :=
    fun c hc => h1 c (readSign_mem _ c hc)
  have hf := readFrac_no_digits _ h2
  simp only [strtodChars]
  rw [readDigitsAux_none 0 0 _ h2]
  simp [hf]

theorem strtod_no_digits (s : String)
    (h : ∀ c ∈ s.data, c.isDigit = false) : strtod s = 0 :=
  strtodChars_no_digits s.data h

/-- A fresh buffer holds no written value. -/
theorem newCells_no_value (n : Int) (j : Nat) (v : EVal) :
    ¬ (newCells n)[j]? = some (some v) := by
  intro h
  rw [newCells, List.getElem?_replicate] at h
  split at h
  · injection h with h
    exact Option.noConfusion h
  · exact Option.noConfusion h

/-! ### The claims -/

/-- C4: numeric coercion returns a numeric leaf unchanged; a string leaf
matches the sentinel sets {"inf", "infinity"} → +infinity and
{"-inf", "-infinity", "ninf"} → -infinity exactly (case-sensitive), any
other string falls back to the strtod parse, which yields 0.0 on a
malformed (digit-free) literal and never errors; any other leaf type
yields 0.0. -/
theorem claim_C4_numeric_coercion :
    (∀ q : ℚ, parse_numeric_value (.num q) = .fin q) ∧
    (parse_numeric_value (.str "inf") = .pinf ∧
     parse_numeric_value (.str "infinity") = .pinf) ∧
    (parse_numeric_value (.str "-inf") = .ninf ∧
     parse_numeric_value (.str "-infinity") = .ninf ∧
     parse_numeric_value (.str "ninf") = .ninf) ∧
    (∀ s : String, s ≠ "inf" → s ≠ "infinity" → s ≠ "-inf" → s ≠ "-infinity" →
      s ≠ "ninf" → parse_numeric_value (.str s) = .fin (strtod s)) ∧
    (∀ s : String, (∀ c ∈ s.data, c.isDigit = false) → strtod s = 0) ∧
    (parse_numeric_value .null = .fin 0 ∧
     (∀ b, parse_numeric_value (.bool b) = .fin 0) ∧
     (∀ l, parse_numeric_value (.arr l) = .fin 0) ∧
     (∀ fs, parse_numeric_value (.obj fs) = .fin 0)) := by
  refine ⟨fun q => rfl, ⟨rfl, rfl⟩, ⟨rfl, rfl, rfl⟩, ?_,
    fun s h => strtod_no_digits s h, rfl, fun b => rfl, fun l => rfl, fun fs => rfl⟩
  intro s h1 h2 h3 h4 h5
  simp only [parse_numeric_value]
  rw [if_neg (by simp [h1, h2]), if_neg (by simp [h3, h4, h5])]

/-- Witness for C4: "cost" is no sentinel and has no digits, so it coerces
to 0.0 through the strtod fallback. -/
theorem claim_C4_witness : parse_numeric_value (.str "cost") = .fin 0 := by
  have h1 := claim_C4_numeric_coercion.2.2.2.1 "cost"
    (by decide) (by decide) (by decide) (by decide) (by decide)
  have h2 := claim_C4_numeric_coercion.2.2.2.2.1 "cost" (by decide)
  rw [h1, h2]

/-- C2: for every well-formed document that parses successfully, the
descriptor's counts equal the lengths implied by the document's arrays:
numConstraints = length(offsets) - 1, nonZeroCount = length(indices),
numVariables = length(coefficients). -/
theorem claim_C2_counts (doc csr offsets indices values objective_data coeffs : JSON)
    (d : ProblemData)
    (h1 : getObjectItem doc "csr_constraint_matrix" = some csr)
    (h2 : getObjectItem csr "offsets" = some offsets)
    (h3 : getObjectItem csr "indices" = some indices)
    (h4 : getObjectItem csr "values" = some values)
    (h5 : getObjectItem doc "objective_data" = some objective_data)
    (h6 : getObjectItem objective_data "coefficients" = some coeffs)
    (hp : parse_cuopt_json doc = some d) :
    d.num_constraints = (children offsets).length - 1 ∧
    d.nnz = (children indices).length ∧
    d.num_variables = (children coeffs).length := by
  rw [parse_eq_assemble h1 h2 h3 h4 h5] at hp
  obtain ⟨cbs, vtypes, hcb, hvt, hd⟩ := assemble_some_elim hp
  subst hd
  refine ⟨rfl, rfl, ?_⟩
  simp [mkData, h6, childrenOf]

/-- Witness for C2 on the concrete relational document: 3 offsets give 2
constraints, no indices give 0 nonzeros, no coefficients give 0 variables. -/
theorem claim_C2_witness :
    dRelational.num_constraints = 2 ∧ dRelational.nnz = 0 ∧
    dRelational.num_variables = 0 := by
  obtain ⟨ha, hb, hc⟩ := claim_C2_counts docRelational _ _ _ _ _ _ dRelational
    rfl rfl rfl rfl rfl rfl (by decide)
  exact ⟨ha.trans (by decide), hb.trans (by decide), hc.trans (by decide)⟩

/-- C9: omitting `variable_types` yields all-CONTINUOUS tags for all
numVariables variables; omitting `maximize` yields objectiveSense
MINIMIZE; omitting `objective_data.offset` yields objectiveOffset 0.0. -/
theorem claim_C9_defaults (doc : JSON) (d : ProblemData)
    (hp : parse_cuopt_json doc = some d) :
    (getObjectItem doc "variable_types" = none →
      d.variable_types = List.replicate d.num_variables.toNat (some .continuous)) ∧
    (getObjectItem doc "maximize" = none → d.objective_sense = .minimize) ∧
    (∀ objective_data, getObjectItem doc "objective_data" = some objective_data →
      getObjectItem objective_data "offset" = none → d.objective_offset = 0) := by
  obtain ⟨csr, offs, inds, vals, od, h1, h2, h3, h4, h5, ha⟩ := parse_some_elim hp
  obtain ⟨cbs, vtypes, hcb, hvt, hd⟩ := assemble_some_elim ha
  subst hd
  refine ⟨fun hnone => ?_, fun hnone => ?_, fun od' hod' hnone => ?_⟩
  · simp only [parseVariableTypes, hnone] at hvt
    injection hvt with hvt
    simp [mkData, ← hvt]
  · simp [mkData, hnone]
  · have hoe : od' = od := by
      rw [h5] at hod'
      exact (Option.some.inj hod').symm
    subst hoe
    simp [mkData, hnone]

/-- Witness for C9 on `docNoVarBounds`: one variable, all three fields
omitted, giving a CONTINUOUS tag, MINIMIZE sense, and offset 0. -/
theorem claim_C9_witness :
    dNoVarBounds.variable_types = [some .continuous] ∧
    dNoVarBounds.objective_sense = .minimize ∧
    dNoVarBounds.objective_offset = 0 := by
  obtain ⟨ht, hs, ho⟩ := claim_C9_defaults docNoVarBounds dNoVarBounds (by decide)
  exact ⟨(ht rfl).trans (by decide), hs rfl, ho _ rfl rfl⟩

/-- C10: an absent top-level `constraint_bounds` object is not an error:
with the required fields present (and well-formed variable types) the
parse still succeeds, and the descriptor's constraint-bound fields stay in
their initial NULL state. -/
theorem claim_C10_absent_constraint_bounds :
    (∀ (doc : JSON) (d : ProblemData), parse_cuopt_json doc = some d →
      getObjectItem doc "constraint_bounds" = none →
      d.constraint_lower_bounds = none ∧ d.constraint_upper_bounds = none) ∧
    (∀ doc csr offsets indices values objective_data : JSON,
      getObjectItem doc "csr_constraint_matrix" = some csr →
      getObjectItem csr "offsets" = some offsets →
      getObjectItem csr "indices" = some indices →
      getObjectItem csr "values" = some values →
      getObjectItem doc "objective_data" = some objective_data →
      getObjectItem doc "constraint_bounds" = none →
      (∀ vt, getObjectItem doc "variable_types" = some vt →
        ∀ j ∈ children vt, (valuestring j).isSome = true) →
      ∃ d, parse_cuopt_json doc = some d ∧
        d.constraint_lower_bounds = none ∧ d.constraint_upper_bounds = none) := by
  constructor
  · intro doc d hp hnone
    obtain ⟨csr, offs, inds, vals, od, h1, h2, h3, h4, h5, ha⟩ := parse_some_elim hp
    obtain ⟨cbs, vtypes, hcb, hvt, hd⟩ := assemble_some_elim ha
    rw [parseConstraintBounds_absent hnone] at hcb
    injection hcb with hcb
    subst hd
    constructor <;> simp [mkData, ← hcb]
  · intro doc csr offs inds vals od h1 h2 h3 h4 h5 hnone hvtok
    rw [parse_eq_assemble h1 h2 h3 h4 h5]
    have hvt : ∃ out, parseVariableTypes doc
        ((childrenOf (getObjectItem od "coefficients")).length) = some out := by
      cases hv : getObjectItem doc "variable_types" with
      | none =>
          exact ⟨List.replicate (childrenOf (getObjectItem od "coefficients")).length
            (some .continuous), by simp [parseVariableTypes, hv]⟩
      | some vt =>
          obtain ⟨out, hout⟩ := writeVarTypes_total (children vt) 0
            (List.replicate
              ((childrenOf (getObjectItem od "coefficients")).length : Int).toNat none)
            (hvtok vt hv)
          exact ⟨out, by simp only [parseVariableTypes, hv]; exact hout⟩
    obtain ⟨vtypes, hvt⟩ := hvt
    simp only [assemble, parseConstraintBounds_absent hnone, hvt]
    exact ⟨_, rfl, rfl, rfl⟩

/-- Witness for C10 on `docEmptyObjective` (which has no
`constraint_bounds`): the parse succeeds with NULL constraint-bound
fields. -/
theorem claim_C10_witness :
    parse_cuopt_json docEmptyObjective = some dEmptyObjective ∧
    dEmptyObjective.constraint_lower_bounds = none ∧
    dEmptyObjective.constraint_upper_bounds = none := by
  obtain ⟨d, hp, hl, hu⟩ := claim_C10_absent_constraint_bounds.2 docEmptyObjective
    _ _ _ _ _ rfl rfl rfl rfl rfl rfl (fun vt hvt => Option.noConfusion hvt)
  have hd : parse_cuopt_json docEmptyObjective = some dEmptyObjective := by decide
  rw [hd] at hp
  injection hp with hp
  subst hp
  exact ⟨hd, hl, hu⟩

/-- C7: a missing `csr_constraint_matrix` object, or a missing `offsets`,
`indices` or `values` array inside it, fails the parse and produces no
descriptor (the C function prints the missing-field diagnostic and
returns -1). -/
theorem claim_C7_missing_csr_fields (doc : JSON)
    (h : getObjectItem doc "csr_constraint_matrix" = none ∨
      ∃ csr, getObjectItem doc "csr_constraint_matrix" = some csr ∧
        (getObjectItem csr "offsets" = none ∨ getObjectItem csr "indices" = none ∨
         getObjectItem csr "values" = none)) :
    parse_cuopt_json doc = none := by
  rcases h with h | ⟨csr, hcsr, h⟩
  · simp [parse_cuopt_json, h]
  · rcases h with h | h | h
    · simp [parse_cuopt_json, hcsr, h]
    · cases ho : getObjectItem csr "offsets" <;>
        simp [parse_cuopt_json, hcsr, ho, h]
    · cases ho : getObjectItem csr "offsets" <;>
        cases hi : getObjectItem csr "indices" <;>
        simp [parse_cuopt_json, hcsr, ho, hi, h]

/-- Witness for C7: the concrete CSR object missing its `values` array
yields no descriptor. -/
theorem claim_C7_witness : parse_cuopt_json docMissingValues = none :=
  claim_C7_missing_csr_fields docMissingValues
    (Or.inr ⟨_, rfl, Or.inr (Or.inr rfl)⟩)

/-- C6 as stated is false: `docEmptyObjective` has an `objective_data`
object with no `coefficients` array, yet the parse succeeds (the source
never checks that lookup), producing a descriptor instead of failing. -/
theorem claim_C6_counterexample :
    ¬ (∀ doc : JSON,
        (getObjectItem doc "objective_data" = none ∨
         ∃ od, getObjectItem doc "objective_data" = some od ∧
           getObjectItem od "coefficients" = none) →
        parse_cuopt_json doc = none) := by
  intro hclaim
  exact absurd (hclaim docEmptyObjective (Or.inr ⟨.obj [], rfl, rfl⟩)) (by decide)

/-- C6 amended: a missing `objective_data` object fails the parse with no
descriptor, but a present `objective_data` without a `coefficients` array
does not fail: the parse succeeds with numVariables = 0 and an empty
objective vector. -/
theorem claim_C6_amended :
    (∀ doc : JSON, getObjectItem doc "objective_data" = none →
      parse_cuopt_json doc = none) ∧
    (∀ (doc od : JSON) (d : ProblemData),
      getObjectItem doc "objective_data" = some od →
      getObjectItem od "coefficients" = none →
      parse_cuopt_json doc = some d →
      d.num_variables = 0 ∧ d.objective_coefficients = []) := by
  constructor
  · intro doc hnone
    cases h1 : getObjectItem doc "csr_constraint_matrix" with
    | none => simp [parse_cuopt_json, h1]
    | some csr =>
        cases h2 : getObjectItem csr "offsets" <;>
          cases h3 : getObjectItem csr "indices" <;>
          cases h4 : getObjectItem csr "values" <;>
          simp [parse_cuopt_json, h1, h2, h3, h4, hnone]
  · intro doc od d hod hco hp
    obtain ⟨csr, offs, inds, vals, od', h1, h2, h3, h4, h5, ha⟩ := parse_some_elim hp
    have hoe : od' = od := by
      rw [h5] at hod
      exact Option.some.inj hod
    subst hoe
    obtain ⟨cbs, vtypes, hcb, hvt, hd⟩ := assemble_some_elim ha
    subst hd
    constructor <;> simp [mkData, hco, childrenOf]

/-- Witness for C6 (amended): the concrete document with no
`objective_data` fails the parse. -/
theorem claim_C6_witness : parse_cuopt_json docMissingObjective = none :=
  claim_C6_amended.1 docMissingObjective rfl

/-- C5 as stated is false: with neither variable-bound form present the
parser leaves the descriptor's variable-bound fields NULL instead of
materializing the [0, +infinity) default; `docNoVarBounds` (one variable,
no `variable_bounds` object) is a concrete counterexample. -/
theorem claim_C5_counterexample :
    ¬ (∀ (doc : JSON) (d : ProblemData),
        getObjectItem doc "variable_bounds" = none →
        parse_cuopt_json doc = some d →
        ∃ a b, d.variable_lower_bounds = some a ∧ d.variable_upper_bounds = some b ∧
          ∀ j < d.num_variables.toNat,
            a[j]? = some (some (.fin 0)) ∧ b[j]? = some (some .pinf)) := by
  intro hclaim
  obtain ⟨a, b, ha, hb, hj⟩ := hclaim docNoVarBounds dNoVarBounds rfl (by decide)
  rw [show dNoVarBounds.variable_lower_bounds = none from rfl] at ha
  cases ha

/-- C5 amended: when the `variable_bounds` object is absent the parse
leaves both variable-bound descriptor fields NULL (no arrays are
allocated); the [0, +infinity) default is applied downstream by the cuOpt
create-problem API, not materialized by this parser. -/
theorem claim_C5_amended (doc : JSON) (d : ProblemData)
    (hvb : getObjectItem doc "variable_bounds" = none)
    (hp : parse_cuopt_json doc = some d) :
    d.variable_lower_bounds = none ∧ d.variable_upper_bounds = none := by
  obtain ⟨csr, offs, inds, vals, od, h1, h2, h3, h4, h5, ha⟩ := parse_some_elim hp
  obtain ⟨cbs, vtypes, hcb, hvt, hd⟩ := assemble_some_elim ha
  subst hd
  constructor <;> simp [mkData, parseVariableBounds, hvb]

/-- Witness for C5 (amended) on the concrete one-variable document. -/
theorem claim_C5_witness :
    dNoVarBounds.variable_lower_bounds = none ∧
    dNoVarBounds.variable_upper_bounds = none :=
  claim_C5_amended docNoVarBounds dNoVarBounds rfl (by decide)

/-- C3 as stated is false: the explicit bound form is copied verbatim, so
`lower_bounds=[5], upper_bounds=[3]` parses successfully with a constraint
whose lower bound exceeds its upper bound; `docExplicitBad` is a concrete
counterexample. -/
theorem claim_C3_counterexample :
    ¬ (∀ (doc : JSON) (d : ProblemData), parse_cuopt_json doc = some d →
        (∀ (k : Nat) (l u : EVal),
          cellAt d.constraint_lower_bounds k = some (some l) →
          cellAt d.constraint_upper_bounds k = some (some u) →
          EVal.ble l u = true) ∧
        (∀ (k : Nat) (l u : EVal),
          cellAt d.variable_lower_bounds k = some (some l) →
          cellAt d.variable_upper_bounds k = some (some u) →
          EVal.ble l u = true)) := by
  intro hclaim
  have h := (hclaim docExplicitBad dExplicitBad (by decide)).1 0 (.fin 5) (.fin 3)
    (by decide) (by decide)
  exact absurd h (by decide)

/-- C3 amended: the lower ≤ upper invariant does hold for every pair of
cells written by the relational constraint-bound form (the explicit form
copies input verbatim and carries no such guarantee). -/
theorem claim_C3_amended (doc cb bounds types : JSON) (d : ProblemData)
    (hcb : getObjectItem doc "constraint_bounds" = some cb)
    (hnx : getObjectItem cb "lower_bounds" = none ∨
      getObjectItem cb "upper_bounds" = none)
    (hb : getObjectItem cb "bounds" = some bounds)
    (ht : getObjectItem cb "types" = some types)
    (hp : parse_cuopt_json doc = some d) :
    ∀ (k : Nat) (l u : EVal),
      cellAt d.constraint_lower_bounds k = some (some l) →
      cellAt d.constraint_upper_bounds k = some (some u) →
      EVal.ble l u = true := by
  obtain ⟨csr, offs, inds, vals, od, h1, h2, h3, h4, h5, ha⟩ := parse_some_elim hp
  obtain ⟨cbs, vtypes, hcbs, hvt, hd⟩ := assemble_some_elim ha
  rw [parseConstraintBounds_relational hcb hnx hb ht] at hcbs
  cases hloop : relationalLoop (children bounds) (children types) 0
      ((children offs).length - 1) (newCells ((children offs).length - 1))
      (newCells ((children offs).length - 1)) with
  | none => rw [hloop] at hcbs; cases hcbs
  | some ab =>
      obtain ⟨a, b⟩ := ab
      rw [hloop] at hcbs
      injection hcbs with hcbs
      subst hcbs
      subst hd
      intro k l u hl hu
      simp only [mkData, cellAt, Option.bind_eq_bind, Option.some_bind] at hl hu
      exact relationalLoop_ordered _ _ _ _ _ _ a b hloop rfl
        (fun j l' u' hj _ => absurd hj (newCells_no_value _ _ _)) k l u hl hu

/-- Witness for C3 (amended) on the relational scenario document: the
resolved pair of constraint 0 is ordered. -/
theorem claim_C3_witness : EVal.ble (.fin 230) .pinf = true := by
  have h := claim_C3_amended docRelational _ _ _ dRelational rfl (Or.inl rfl)
    rfl rfl (by decide)
  exact h 0 (.fin 230) .pinf (by decide) (by decide)

/-- C1: for a document resolving constraint bounds through the relational
form (`bounds` + `types`, the explicit pair not both present), each
constraint i inside the processed range with type code "L" resolves to
(-infinity, bounds[i]), "G" to (bounds[i], +infinity), "E" to
(bounds[i], bounds[i]), where bounds[i] passes through numeric coercion. -/
theorem claim_C1_relational_codes (doc cb bounds types : JSON) (d : ProblemData)
    (hcb : getObjectItem doc "constraint_bounds" = some cb)
    (hnx : getObjectItem cb "lower_bounds" = none ∨
      getObjectItem cb "upper_bounds" = none)
    (hb : getObjectItem cb "bounds" = some bounds)
    (ht : getObjectItem cb "types" = some types)
    (hp : parse_cuopt_json doc = some d) :
    ∀ (k : Nat) (hk : k < (children bounds).length)
      (hk2 : k < (children types).length),
      (k : Int) < d.num_constraints →
      ∀ code, valuestring ((children types).get ⟨k, hk2⟩) = some code →
        ((code = "L" →
            cellAt d.constraint_lower_bounds k = some (some EVal.ninf) ∧
            cellAt d.constraint_upper_bounds k =
              some (some (parse_numeric_value ((children bounds).get ⟨k, hk⟩)))) ∧
         (code = "G" →
            cellAt d.constraint_lower_bounds k =
              some (some (parse_numeric_value ((children bounds).get ⟨k, hk⟩))) ∧
            cellAt d.constraint_upper_bounds k = some (some EVal.pinf)) ∧
         (code = "E" →
            cellAt d.constraint_lower_bounds k =
              some (some (parse_numeric_value ((children bounds).get ⟨k, hk⟩))) ∧
            cellAt d.constraint_upper_bounds k =
              some (some (parse_numeric_value ((children bounds).get ⟨k, hk⟩))))) := by
  obtain ⟨csr, offs, inds, vals, od, h1, h2, h3, h4, h5, ha⟩ := parse_some_elim hp
  obtain ⟨cbs, vtypes, hcbs, hvt, hd⟩ := assemble_some_elim ha
  rw [parseConstraintBounds_relational hcb hnx hb ht] at hcbs
  cases hloop : relationalLoop (children bounds) (children types) 0
      ((children offs).length - 1) (newCells ((children offs).length - 1))
      (newCells ((children offs).length - 1)) with
  | none => rw [hloop] at hcbs; cases hcbs
  | some ab =>
      obtain ⟨a, b⟩ := ab
      rw [hloop] at hcbs
      injection hcbs with hcbs
      subst hcbs
      subst hd
      intro k hk hk2 hkd code hcode
      have hnc : (k : Int) < (children offs).length - 1 := by
        simpa [mkData] using hkd
      have hlen : 0 + k < (newCells ((children offs).length - 1)).length := by
        simp only [newCells, List.length_replicate]
        omega
      have hslot := relationalLoop_slot _ _ 0 _ _ _ a b hloop k hk hk2
        (by simpa using hnc) hlen hlen code hcode
      simp only [Nat.zero_add] at hslot
      simpa [mkData, cellAt] using hslot

/-- Witness for C1: the spec scenario `bounds=[230,190], types=["G","L"]`
resolves constraint 0 to (230, +infinity) and constraint 1 to
(-infinity, 190). -/
theorem claim_C1_witness :
    cellAt dRelational.constraint_lower_bounds 0 = some (some (.fin 230)) ∧
    cellAt dRelational.constraint_upper_bounds 0 = some (some .pinf) ∧
    cellAt dRelational.constraint_lower_bounds 1 = some (some .ninf) ∧
    cellAt dRelational.constraint_upper_bounds 1 = some (some (.fin 190)) := by
  have h := claim_C1_relational_codes docRelational _ _ _ dRelational rfl
    (Or.inl rfl) rfl rfl (by decide)
  have h0 := (h 0 (by decide) (by decide) (by decide) "G" (by decide)).2.1 rfl
  have h1 := (h 1 (by decide) (by decide) (by decide) "L" (by decide)).1 rfl
  exact ⟨h0.1.trans (by decide), h0.2, h1.1, h1.2.trans (by decide)⟩

/-- C8: the relational lockstep loop processes exactly
min(numConstraints, |bounds|, |types|) elements: its result only depends
on the first that-many elements of each array (elements beyond are not
consumed), and no cell at or past that point is ever written. -/
theorem claim_C8_lockstep (bs ts : List JSON) (nc : Int) (clb cub : CellArr) :
    relationalLoop bs ts 0 nc clb cub =
      relationalLoop (bs.take (min nc.toNat (min bs.length ts.length)))
        (ts.take (min nc.toNat (min bs.length ts.length))) 0 nc clb cub ∧
    (∀ a b, relationalLoop bs ts 0 nc clb cub = some (a, b) →
      ∀ j : Nat, min nc.toNat (min bs.length ts.length) ≤ j →
        a[j]? = clb[j]? ∧ b[j]? = cub[j]?) := by
  constructor
  · have e1 := relationalLoop_take_nc bs ts 0 nc clb cub
    have e2 := relationalLoop_take_min (bs.take (nc.toNat - 0))
      (ts.take (nc.toNat - 0)) 0 nc clb cub
    have hA : (bs.take (nc.toNat - 0)).take
        (min (bs.take (nc.toNat - 0)).length (ts.take (nc.toNat - 0)).length) =
        bs.take (min nc.toNat (min bs.length ts.length)) := by
      rw [List.take_take]
      congr 1
      simp only [List.length_take]
      omega
    have hB : (ts.take (nc.toNat - 0)).take
        (min (bs.take (nc.toNat - 0)).length (ts.take (nc.toNat - 0)).length) =
        ts.take (min nc.toNat (min bs.length ts.length)) := by
      rw [List.take_take]
      congr 1
      simp only [List.length_take]
      omega
    rw [e1, e2, hA, hB]
  · intro a b h j hj
    rcases Nat.le_total nc.toNat (min bs.length ts.length) with hmin | hmin
    · exact relationalLoop_untouched bs ts 0 nc clb cub a b h j
        (Or.inr (Or.inl (by omega)))
    · exact relationalLoop_untouched bs ts 0 nc clb cub a b h j
        (Or.inr (Or.inr (by omega)))

/-- Witness for C8 at a concrete input: with numConstraints = 1 and two
pairs available, the loop consumes exactly one pair; slot 1 of both
buffers is untouched. -/
theorem claim_C8_witness :
    ([some (EVal.fin 1), none] : CellArr)[1]? = ([none, none] : CellArr)[1]? ∧
    ([some EVal.pinf, none] : CellArr)[1]? = ([none, none] : CellArr)[1]? := by
  have h := (claim_C8_lockstep [JSON.num 1, JSON.num 2]
      [JSON.str "G", JSON.str "L"] 1 [none, none] [none, none]).2
    [some (EVal.fin 1), none] [some EVal.pinf, none] (by decide) 1 (by decide)
  exact h
